import Mathlib

/-!
Verification development for the microgame proof-of-concept repository.

The core of the repository is the GameContainer React component
(GameContainer.tsx) together with the shared type definitions
(game.types.ts), the ProgressTracker projection (ProgressTracker.tsx)
and the microgame components (DirectionMatch.tsx, ColorMatch.tsx).

Embedding conventions, matching the event-loop semantics of a React
function component:

* Every call of "useState" becomes a field of an explicit state record.
* An event handler closes over the state snapshot of the render it was
  created in ("s0" below).  Calls of "setState" with a functional
  updater are queued and applied in order to the committed state; a
  handler that is entered directly from a user event sees
  committed = s0, while a handler invoked from inside another handler
  (handleSkip calls handleLevelComplete) sees the committed state that
  already includes the updates queued so far, but still reads the
  stale closure snapshot "s0" for every occurrence of "state.x" in its
  body.  We therefore give each handler the closure snapshot "s0" and
  the committed state as separate arguments and return the committed
  state after all queued updates have been applied.
* "Date.now()" becomes an explicit integer argument ("now").
  handleSkip calls Date.now() itself and a second time inside
  handleLevelComplete, so it receives two time arguments.
* The single pending skip-visibility setTimeout (skipButtonTimer) is
  modelled as an "Option Nat" holding the level it was scheduled for.
  In the source, every replacement of skipButtonTimer cancels the
  previous timeout (explicit clearTimeout calls plus the useEffect
  cleanup keyed on skipButtonTimer), so at most one timeout is ever
  pending and overwriting the field is a faithful model.
-/

namespace MicrogamePoc

/-- GameState from game.types.ts: 'idle' | 'playing' | 'completed'. -/
inductive GameState
  | idle
  | playing
  | completed
deriving DecidableEq, Repr

/-- LevelResult from game.types.ts. -/
structure LevelResult where
  completed : Bool
  skipped : Bool
  timeSpent : Int
deriving DecidableEq, Repr

/-- GameContainerState from game.types.ts. -/
structure GameContainerState where
  gameState : GameState
  currentLevel : Nat
  startTime : Option Int
  totalTime : Int
  levelResults : List LevelResult
  showSkipButton : Bool
deriving DecidableEq, Repr

/-- JavaScript truthiness of a nullable number: null and 0 are falsy.
Used for the source expressions "state.startTime ? _ : _" and
"state.startTime || 0". -/
def jsTruthy : Option Int → Bool
  | none => false
  | some t => t != 0

/-- Shared time computation "state.startTime ? now - state.startTime : 0"
appearing verbatim in handleLevelComplete and handleSkip. -/
def elapsedSince (startTime : Option Int) (now : Int) : Int :=
  if jsTruthy startTime then now - startTime.getD 0 else 0

/-- Initial levelResults array: Array(5).fill({completed:false, skipped:false, timeSpent:0}). -/
def initialLevelResults : List LevelResult :=
  List.replicate 5 { completed := false, skipped := false, timeSpent := 0 }

/-- Initial value given to useState in GameContainer. -/
def initialSession : GameContainerState :=
  { gameState := GameState.idle
    currentLevel := 1
    startTime := none
    totalTime := 0
    levelResults := initialLevelResults
    showSkipButton := false }

/-- startGame from GameContainer.tsx (the state it sets; the timeout it
schedules is modelled at the container-transition level below). -/
def startGame (now : Int) : GameContainerState :=
  { gameState := GameState.playing
    currentLevel := 1
    startTime := some now
    totalTime := 0
    levelResults := initialLevelResults
    showSkipButton := false }

/-- endGame from GameContainer.tsx.  Reads the closure snapshot "s0" for
startTime and totalTime and queues one update on the committed state. -/
def endGame (s0 : GameContainerState) (now : Int) (committed : GameContainerState) :
    GameContainerState :=
  let finalTime :=
    if jsTruthy s0.startTime then now - s0.startTime.getD 0 + s0.totalTime else s0.totalTime
  { committed with
      gameState := GameState.completed
      totalTime := finalTime
      showSkipButton := false }

/-- handleLevelComplete from GameContainer.tsx.  Computes timeSpent and
newLevelResults from the closure snapshot "s0"; if s0.currentLevel is at
least 5 it calls endGame, otherwise it queues one functional update
(advance level, install newLevelResults, hide the skip button). -/
def handleLevelComplete (s0 : GameContainerState) (now : Int)
    (committed : GameContainerState) : GameContainerState :=
  let timeSpent := elapsedSince s0.startTime now
  let newLevelResults :=
    s0.levelResults.set (s0.currentLevel - 1)
      { completed := true, skipped := false, timeSpent := timeSpent }
  if s0.currentLevel ≥ 5 then
    endGame s0 now committed
  else
    { committed with
        currentLevel := committed.currentLevel + 1
        levelResults := newLevelResults
        showSkipButton := false }

/-- handleSkip from GameContainer.tsx.  Queues one functional update
(add the 30000 ms penalty, install the skipped-outcome array) and then
calls handleLevelComplete, which still reads the stale closure
snapshot "s0" but commits on top of the queued update. -/
def handleSkip (s0 : GameContainerState) (now now2 : Int) : GameContainerState :=
  let timeSpent := elapsedSince s0.startTime now
  let newLevelResults :=
    s0.levelResults.set (s0.currentLevel - 1)
      { completed := false, skipped := true, timeSpent := timeSpent }
  let afterSkipUpdate :=
    { s0 with
        totalTime := s0.totalTime + 30000
        levelResults := newLevelResults }
  handleLevelComplete s0 now2 afterSkipUpdate

/-- resetGame from GameContainer.tsx: sets the fixed default state
whatever the current state is. -/
def resetGame (_s : GameContainerState) : GameContainerState :=
  { gameState := GameState.idle
    currentLevel := 1
    startTime := none
    totalTime := 0
    levelResults := initialLevelResults
    showSkipButton := false }

/-- Container state including the pending skip-visibility timeout:
"pendingTimer = some l" means a 5000 ms timeout scheduled while level
"l" was current is still pending. -/
structure ContainerState where
  session : GameContainerState
  pendingTimer : Option Nat
deriving DecidableEq, Repr

/-- State of the freshly mounted component. -/
def initialContainer : ContainerState :=
  { session := initialSession, pendingTimer := none }

/-- Events the container can receive.  start is the Start Game button
(rendered only while idle); complete is the active microgame's
onComplete callback (a microgame is rendered only while playing); skip
is the SkipButton onSkip callback (rendered only while playing and
visible); timerFire is the pending 5000 ms skip-visibility timeout
firing; restart is the ResultsScreen onRestart callback (rendered only
while completed). -/
inductive GEvent
  | start (now : Int)
  | complete (now : Int)
  | skip (now now2 : Int)
  | timerFire
  | restart
deriving DecidableEq, Repr

/-- One event-loop turn of the container: the guard records when the
control that raises the event is rendered at all, the new state is
computed by the corresponding handler, and the pending timeout is
replaced exactly as the source replaces skipButtonTimer (startGame and
the advance branch of handleLevelComplete schedule a fresh 5000 ms
timeout; endGame and resetGame clear it; a fired timeout is spent). -/
def stepFn (c : ContainerState) : GEvent → Option ContainerState
  | GEvent.start now =>
      if c.session.gameState = GameState.idle then
        some { session := startGame now, pendingTimer := some 1 }
      else none
  | GEvent.complete now =>
      if c.session.gameState = GameState.playing then
        some { session := handleLevelComplete c.session now c.session
               pendingTimer :=
                 if c.session.currentLevel ≥ 5 then none
                 else some (c.session.currentLevel + 1) }
      else none
  | GEvent.skip now now2 =>
      if c.session.gameState = GameState.playing ∧ c.session.showSkipButton = true then
        some { session := handleSkip c.session now now2
               pendingTimer :=
                 if c.session.currentLevel ≥ 5 then none
                 else some (c.session.currentLevel + 1) }
      else none
  | GEvent.timerFire =>
      match c.pendingTimer with
      | some _ => some { session := { c.session with showSkipButton := true }
                         pendingTimer := none }
      | none => none
  | GEvent.restart =>
      if c.session.gameState = GameState.completed then
        some { session := resetGame c.session, pendingTimer := none }
      else none

/-- Runs a list of events from a given container state; none when some
event's guard is not met. -/
def runFrom (c : ContainerState) : List GEvent → Option ContainerState
  | [] => some c
  | e :: evs =>
      match stepFn c e with
      | some c' => runFrom c' evs
      | none => none

/-- Runs a list of events from the freshly mounted component. -/
def runGame (evs : List GEvent) : Option ContainerState :=
  runFrom initialContainer evs


/-! ### Reachability invariant of the container -/

/-- Invariant holding in every reachable container state: an idle
container is exactly the freshly mounted one, a playing container has
its level index in bounds and five outcome slots, and a pending
skip-visibility timeout always belongs to the level that is currently
being played. -/
def ContainerInv (c : ContainerState) : Prop :=
  (c.session.gameState = GameState.idle → c = initialContainer) ∧
  (c.session.gameState = GameState.playing →
     1 ≤ c.session.currentLevel ∧ c.session.currentLevel ≤ 5 ∧
     c.session.levelResults.length = 5) ∧
  (∀ l, c.pendingTimer = some l →
     c.session.gameState = GameState.playing ∧ l = c.session.currentLevel)


/-! ### Skip counting for the totalTime bookkeeping -/

/-- Number of skip transitions taken in the current session: folds the
event list in execution order, restarting the count at every start (a
new session) and at every restart (back to idle). -/
def skipCountFrom (n : Nat) : List GEvent → Nat
  | [] => n
  | GEvent.start _ :: evs => skipCountFrom 0 evs
  | GEvent.skip _ _ :: evs => skipCountFrom (n + 1) evs
  | GEvent.restart :: evs => skipCountFrom 0 evs
  | GEvent.complete _ :: evs => skipCountFrom n evs
  | GEvent.timerFire :: evs => skipCountFrom n evs


/-! ### Display projections (ProgressTracker.tsx, Timer props) -/

/-- getLevelStatus from ProgressTracker.tsx, a pure function of the two
props currentLevel and levelResults plus the slot index of the render
loop.  The source indexes levelResults[levelIndex] with levelIndex in
0..4 against a five-element array; the out-of-range case, which the
render loop never produces, is modelled with the default record. -/
def getLevelStatus (currentLevel : Nat) (levelResults : List LevelResult)
    (levelIndex : Nat) : String :=
  if levelIndex + 1 < currentLevel then
    let result := (levelResults.get? levelIndex).getD
      { completed := false, skipped := false, timeSpent := 0 }
    if result.completed then "completed"
    else if result.skipped then "skipped"
    else "pending"
  else if levelIndex + 1 = currentLevel then "current"
  else "pending"

/-- TimerProps from game.types.ts. -/
structure TimerProps where
  startTime : Int
  additionalTime : Int
deriving DecidableEq, Repr

/-- Props the container passes to the Timer while playing:
startTime={state.startTime || 0} and additionalTime={state.totalTime}
(GameContainer.tsx render). -/
def timerProps (s : GameContainerState) : TimerProps :=
  { startTime := if jsTruthy s.startTime then s.startTime.getD 0 else 0
    additionalTime := s.totalTime }

/-! ### Microgame instances

Each microgame is a self-contained React component; we model an
instance as its useState fields plus bookkeeping for the two kinds of
setTimeout callbacks it schedules (the onComplete call after a correct
tap and the feedback reset after a wrong tap) and a counter of how
often the onComplete callback has been invoked.  Events are processed
one at a time (UI event loop); a scheduled callback may fire at any
later point, which over-approximates the real 500 ms and 300 ms
delays. -/

/-- Events a microgame instance can receive: a tap on option/arrow
"index", the firing of a scheduled onComplete timeout, and the firing
of a scheduled feedback-reset timeout. -/
inductive MGEvent
  | tap (index : Nat)
  | fireComplete
  | fireReset
deriving DecidableEq, Repr

namespace DirectionMatch

/-- Direction from DirectionMatch.tsx. -/
inductive Direction
  | up
  | down
  | left
  | right
deriving DecidableEq, Repr

/-- DIRECTIONS record from DirectionMatch.tsx: label and rotation. -/
def DIRECTIONS : Direction → String × Nat
  | Direction.up => ("UP", 0)
  | Direction.right => ("RIGHT", 90)
  | Direction.down => ("DOWN", 180)
  | Direction.left => ("LEFT", 270)

/-- ALL_DIRECTIONS from DirectionMatch.tsx. -/
def ALL_DIRECTIONS : List Direction :=
  [Direction.up, Direction.down, Direction.left, Direction.right]

/-- ArrowConfig from DirectionMatch.tsx. -/
structure ArrowConfig where
  id : Nat
  direction : Direction
  rotation : Nat
  isTarget : Bool
deriving DecidableEq, Repr

/-- DirectionMatchState from DirectionMatch.tsx. -/
structure DirectionMatchState where
  targetDirection : Direction
  arrows : List ArrowConfig
  feedback : Option Nat
deriving DecidableEq, Repr

/-- generateGame from DirectionMatch.tsx.  The two random draws (the
target pick and the shuffle) are passed in as arguments. -/
def generateGame (targetDirection : Direction)
    (shuffledDirections : List Direction) : DirectionMatchState :=
  { targetDirection := targetDirection
    arrows := shuffledDirections.enum.map (fun p =>
      { id := p.1
        direction := p.2
        rotation := (DIRECTIONS p.2).2
        isTarget := p.2 == targetDirection })
    feedback := none }

/-- One DirectionMatch instance: the gameState useState value plus the
pending-timeout bookkeeping and the count of onComplete invocations. -/
structure Instance where
  gameState : DirectionMatchState
  pendingComplete : Bool
  pendingReset : Bool
  completions : Nat
deriving DecidableEq, Repr

/-- State of a freshly mounted DirectionMatch: the mount effect
replaces the placeholder state with generateGame(); nothing is
scheduled and onComplete has not been called. -/
def mount (targetDirection : Direction)
    (shuffledDirections : List Direction) : Instance :=
  { gameState := generateGame targetDirection shuffledDirections
    pendingComplete := false
    pendingReset := false
    completions := 0 }

/-- handleArrowTap from DirectionMatch.tsx: ignore taps during
feedback; a tap on the target arrow shows feedback and schedules
onComplete; a tap on a wrong arrow shows feedback and schedules the
feedback reset.  A tap outside the arrow array cannot arise from the
rendered buttons and is modelled as a no-op. -/
def handleArrowTap (s : Instance) (index : Nat) : Instance :=
  if s.gameState.feedback ≠ none then s
  else
    match s.gameState.arrows.get? index with
    | none => s
    | some arrow =>
        if arrow.isTarget then
          { s with gameState := { s.gameState with feedback := some index }
                   pendingComplete := true }
        else
          { s with gameState := { s.gameState with feedback := some index }
                   pendingReset := true }

/-- One event-loop turn of a DirectionMatch instance. -/
def step (s : Instance) : MGEvent → Option Instance
  | MGEvent.tap index => some (handleArrowTap s index)
  | MGEvent.fireComplete =>
      if s.pendingComplete then
        some { s with pendingComplete := false, completions := s.completions + 1 }
      else none
  | MGEvent.fireReset =>
      if s.pendingReset then
        some { s with gameState := { s.gameState with feedback := none }
                      pendingReset := false }
      else none

/-- Runs a list of events on a DirectionMatch instance. -/
def run (s : Instance) : List MGEvent → Option Instance
  | [] => some s
  | e :: evs =>
      match step s e with
      | some s' => run s' evs
      | none => none

/-- Phase invariant of a DirectionMatch instance: it is either idle
(no feedback shown, nothing scheduled, onComplete never called),
showing wrong-tap feedback with the reset scheduled, showing
correct-tap feedback with onComplete scheduled, or done (onComplete
called exactly once, feedback locked forever). -/
def Inv (s : Instance) : Prop :=
  (s.gameState.feedback = none ∧ s.pendingComplete = false ∧
     s.pendingReset = false ∧ s.completions = 0) ∨
  ((∃ j, s.gameState.feedback = some j) ∧ s.pendingComplete = false ∧
     s.pendingReset = true ∧ s.completions = 0) ∨
  ((∃ j, s.gameState.feedback = some j) ∧ s.pendingComplete = true ∧
     s.pendingReset = false ∧ s.completions = 0) ∨
  ((∃ j, s.gameState.feedback = some j) ∧ s.pendingComplete = false ∧
     s.pendingReset = false ∧ s.completions = 1)

end DirectionMatch

namespace ColorMatch

/-- ColorOption from ColorMatch.tsx. -/
structure ColorOption where
  color : String
  isCorrect : Bool
deriving DecidableEq, Repr

/-- ColorMatchState from ColorMatch.tsx. -/
structure ColorMatchState where
  targetColor : String
  options : List ColorOption
  selectedIndex : Option Nat
deriving DecidableEq, Repr

/-- COLORS from ColorMatch.tsx. -/
def COLORS : List String :=
  ["#EF4444", "#3B82F6", "#10B981", "#F59E0B",
   "#8B5CF6", "#EC4899", "#14B8A6", "#F97316"]

/-- Feedback useState of ColorMatch.tsx: 'none' | 'wrong' | 'correct'
('none' is rendered here as noFeedback to avoid clashing with
Option.none). -/
inductive Feedback
  | noFeedback
  | wrong
  | correct
deriving DecidableEq, Repr

/-- generateGame from ColorMatch.tsx.  The first random shuffle of
COLORS is passed in as the already-shuffled list and the second random
shuffle of the four options as a reordering function. -/
def generateGame (shuffled : List String)
    (optionsShuffle : List ColorOption → List ColorOption) : ColorMatchState :=
  let targetColor := shuffled.headD ""
  let incorrectColors := (shuffled.drop 1).take 3
  let options := optionsShuffle
    ({ color := targetColor, isCorrect := true } ::
      incorrectColors.map (fun c => { color := c, isCorrect := false }))
  { targetColor := targetColor
    options := options
    selectedIndex := none }

/-- One ColorMatch instance: the two useState values plus the
pending-timeout bookkeeping and the count of onComplete invocations. -/
structure Instance where
  gameState : ColorMatchState
  feedback : Feedback
  pendingComplete : Bool
  pendingReset : Bool
  completions : Nat
deriving DecidableEq, Repr

/-- State of a freshly mounted ColorMatch instance. -/
def mount (shuffled : List String)
    (optionsShuffle : List ColorOption → List ColorOption) : Instance :=
  { gameState := generateGame shuffled optionsShuffle
    feedback := Feedback.noFeedback
    pendingComplete := false
    pendingReset := false
    completions := 0 }

/-- handleOptionTap from ColorMatch.tsx: ignore taps during feedback;
record the selection; a correct tap sets feedback 'correct' and
schedules onComplete; a wrong tap sets feedback 'wrong' and schedules
the reset.  A tap outside the options array cannot arise from the
rendered buttons and is modelled as a no-op. -/
def handleOptionTap (s : Instance) (index : Nat) : Instance :=
  if s.feedback ≠ Feedback.noFeedback then s
  else
    match s.gameState.options.get? index with
    | none => s
    | some option =>
        let s1 := { s with gameState := { s.gameState with selectedIndex := some index } }
        if option.isCorrect then
          { s1 with feedback := Feedback.correct, pendingComplete := true }
        else
          { s1 with feedback := Feedback.wrong, pendingReset := true }

/-- One event-loop turn of a ColorMatch instance.  The reset timeout
clears the feedback and the selection. -/
def step (s : Instance) : MGEvent → Option Instance
  | MGEvent.tap index => some (handleOptionTap s index)
  | MGEvent.fireComplete =>
      if s.pendingComplete then
        some { s with pendingComplete := false, completions := s.completions + 1 }
      else none
  | MGEvent.fireReset =>
      if s.pendingReset then
        some { s with feedback := Feedback.noFeedback
                      gameState := { s.gameState with selectedIndex := none }
                      pendingReset := false }
      else none

/-- Runs a list of events on a ColorMatch instance. -/
def run (s : Instance) : List MGEvent → Option Instance
  | [] => some s
  | e :: evs =>
      match step s e with
      | some s' => run s' evs
      | none => none

/-- Phase invariant of a ColorMatch instance, mirroring the
DirectionMatch one: idle, wrong-feedback with reset scheduled,
correct-feedback with onComplete scheduled, or done. -/
def Inv (s : Instance) : Prop :=
  (s.feedback = Feedback.noFeedback ∧ s.pendingComplete = false ∧
     s.pendingReset = false ∧ s.completions = 0) ∨
  (s.feedback = Feedback.wrong ∧ s.pendingComplete = false ∧
     s.pendingReset = true ∧ s.completions = 0) ∨
  (s.feedback = Feedback.correct ∧ s.pendingComplete = true ∧
     s.pendingReset = false ∧ s.completions = 0) ∨
  (s.feedback = Feedback.correct ∧ s.pendingComplete = false ∧
     s.pendingReset = false ∧ s.completions = 1)

end ColorMatch

/-! ### Concrete states used by witnesses -/

/-- Container state right after pressing Start Game at t=0. -/
def afterStartContainer : ContainerState :=
  { session := startGame 0, pendingTimer := some 1 }

/-- Container state after Start at t=0 and completing level 1 at t=10
(startTime 0 is falsy in JavaScript, so the recorded timeSpent is 0). -/
def afterFirstComplete : ContainerState :=
  { session :=
      { gameState := GameState.playing
        currentLevel := 2
        startTime := some 0
        totalTime := 0
        levelResults :=
          [ { completed := true, skipped := false, timeSpent := 0 },
            { completed := false, skipped := false, timeSpent := 0 },
            { completed := false, skipped := false, timeSpent := 0 },
            { completed := false, skipped := false, timeSpent := 0 },
            { completed := false, skipped := false, timeSpent := 0 } ]
        showSkipButton := false }
    pendingTimer := some 2 }

/-- Container state after Start at t=1000, the visibility timeout
firing, and a skip of level 1 at t=2000. -/
def afterOneSkip : ContainerState :=
  { session :=
      { gameState := GameState.playing
        currentLevel := 2
        startTime := some 1000
        totalTime := 30000
        levelResults :=
          [ { completed := true, skipped := false, timeSpent := 1000 },
            { completed := false, skipped := false, timeSpent := 0 },
            { completed := false, skipped := false, timeSpent := 0 },
            { completed := false, skipped := false, timeSpent := 0 },
            { completed := false, skipped := false, timeSpent := 0 } ]
        showSkipButton := false }
    pendingTimer := some 2 }

/-- An arbitrary completed session, used by the restart witness. -/
def aCompletedSession : GameContainerState :=
  { gameState := GameState.completed
    currentLevel := 5
    startTime := some 1000
    totalTime := 8000
    levelResults := initialLevelResults
    showSkipButton := false }

/-! ## Theorems -/


/-! ### Characterization lemmas for the handlers and the step function -/

theorem handleLevelComplete_lt {s0 : GameContainerState} (now : Int)
    (committed : GameContainerState) (h : s0.currentLevel < 5) :
    handleLevelComplete s0 now committed =
      { committed with
          currentLevel := committed.currentLevel + 1
          levelResults := s0.levelResults.set (s0.currentLevel - 1)
            { completed := true, skipped := false,
              timeSpent := elapsedSince s0.startTime now }
          showSkipButton := false } := by
  unfold handleLevelComplete
  rw [if_neg (by omega)]

theorem handleLevelComplete_ge {s0 : GameContainerState} (now : Int)
    (committed : GameContainerState) (h : 5 ≤ s0.currentLevel) :
    handleLevelComplete s0 now committed = endGame s0 now committed := by
  unfold handleLevelComplete
  rw [if_pos h]

theorem handleSkip_eq (s0 : GameContainerState) (now now2 : Int) :
    handleSkip s0 now now2 =
      handleLevelComplete s0 now2
        { s0 with
            totalTime := s0.totalTime + 30000
            levelResults := s0.levelResults.set (s0.currentLevel - 1)
              { completed := false, skipped := true,
                timeSpent := elapsedSince s0.startTime now } } := rfl

theorem stepFn_start_inv {c c' : ContainerState} {now : Int}
    (h : stepFn c (GEvent.start now) = some c') :
    c.session.gameState = GameState.idle ∧
    c' = { session := startGame now, pendingTimer := some 1 } := by
  by_cases hg : c.session.gameState = GameState.idle
  · refine ⟨hg, ?_⟩
    simp [stepFn, hg] at h
    exact h.symm
  · simp [stepFn, hg] at h

theorem stepFn_complete_inv {c c' : ContainerState} {now : Int}
    (h : stepFn c (GEvent.complete now) = some c') :
    c.session.gameState = GameState.playing ∧
    c' = { session := handleLevelComplete c.session now c.session
           pendingTimer :=
             if c.session.currentLevel ≥ 5 then none
             else some (c.session.currentLevel + 1) } := by
  by_cases hg : c.session.gameState = GameState.playing
  · refine ⟨hg, ?_⟩
    simp [stepFn, hg] at h
    exact h.symm
  · simp [stepFn, hg] at h

theorem stepFn_skip_inv {c c' : ContainerState} {now now2 : Int}
    (h : stepFn c (GEvent.skip now now2) = some c') :
    c.session.gameState = GameState.playing ∧
    c.session.showSkipButton = true ∧
    c' = { session := handleSkip c.session now now2
           pendingTimer :=
             if c.session.currentLevel ≥ 5 then none
             else some (c.session.currentLevel + 1) } := by
  by_cases hg : c.session.gameState = GameState.playing ∧ c.session.showSkipButton = true
  · refine ⟨hg.1, hg.2, ?_⟩
    simp [stepFn, hg] at h
    exact h.symm
  · simp [stepFn, hg] at h

theorem stepFn_timerFire_inv {c c' : ContainerState}
    (h : stepFn c GEvent.timerFire = some c') :
    (∃ l, c.pendingTimer = some l) ∧
    c' = { session := { c.session with showSkipButton := true }
           pendingTimer := none } := by
  cases hp : c.pendingTimer with
  | none =>
      unfold stepFn at h
      rw [hp] at h
      exact absurd h (by simp)
  | some l =>
      refine ⟨⟨l, rfl⟩, ?_⟩
      unfold stepFn at h
      rw [hp] at h
      exact (Option.some.inj h).symm

theorem stepFn_restart_inv {c c' : ContainerState}
    (h : stepFn c GEvent.restart = some c') :
    c.session.gameState = GameState.completed ∧
    c' = { session := resetGame c.session, pendingTimer := none } := by
  by_cases hg : c.session.gameState = GameState.completed
  · refine ⟨hg, ?_⟩
    simp [stepFn, hg] at h
    exact h.symm
  · simp [stepFn, hg] at h

theorem initialContainer_inv : ContainerInv initialContainer :=
  ⟨fun _ => rfl, fun h => GameState.noConfusion h, fun _ hl => Option.noConfusion hl⟩

theorem stepFn_preserves_inv {c c' : ContainerState} {e : GEvent}
    (hinv : ContainerInv c) (h : stepFn c e = some c') : ContainerInv c' := by
  cases e with
  | start now =>
      obtain ⟨hg, rfl⟩ := stepFn_start_inv h
      refine ⟨fun h2 => ?_, fun _ => ?_, fun l hl => ?_⟩
      · simp [startGame] at h2
      · simp [startGame, initialLevelResults]
      · simp [startGame] at hl ⊢
        omega
  | complete now =>
      obtain ⟨hg, rfl⟩ := stepFn_complete_inv h
      obtain ⟨h1, h5, hlen⟩ := hinv.2.1 hg
      by_cases hge : c.session.currentLevel ≥ 5
      · rw [handleLevelComplete_ge now c.session hge]
        refine ⟨fun h2 => ?_, fun h2 => ?_, fun l hl => ?_⟩
        · simp [endGame] at h2
        · simp [endGame] at h2
        · rw [if_pos hge] at hl
          cases hl
      · rw [handleLevelComplete_lt now c.session (by omega)]
        refine ⟨fun h2 => ?_, fun _ => ?_, fun l hl => ?_⟩
        · simp [hg] at h2
        · refine ⟨by simp, by simp; omega, ?_⟩
          simp [List.length_set, hlen]
        · rw [if_neg hge] at hl
          simp at hl ⊢
          exact ⟨hg, by omega⟩
  | skip now now2 =>
      obtain ⟨hg, hshow, rfl⟩ := stepFn_skip_inv h
      obtain ⟨h1, h5, hlen⟩ := hinv.2.1 hg
      rw [handleSkip_eq]
      by_cases hge : c.session.currentLevel ≥ 5
      · rw [handleLevelComplete_ge now2 _ hge]
        refine ⟨fun h2 => ?_, fun h2 => ?_, fun l hl => ?_⟩
        · simp [endGame] at h2
        · simp [endGame] at h2
        · rw [if_pos hge] at hl
          cases hl
      · rw [handleLevelComplete_lt now2 _ (by omega)]
        refine ⟨fun h2 => ?_, fun _ => ?_, fun l hl => ?_⟩
        · simp [hg] at h2
        · refine ⟨by simp, by simp; omega, ?_⟩
          simp [List.length_set, hlen]
        · rw [if_neg hge] at hl
          simp at hl ⊢
          exact ⟨hg, by omega⟩
  | timerFire =>
      obtain ⟨⟨l0, hp⟩, rfl⟩ := stepFn_timerFire_inv h
      have hplay := (hinv.2.2 l0 hp).1
      obtain ⟨h1, h5, hlen⟩ := hinv.2.1 hplay
      refine ⟨fun h2 => ?_, fun _ => ?_, fun l hl => ?_⟩
      · simp [hplay] at h2
      · exact ⟨h1, h5, hlen⟩
      · cases hl
  | restart =>
      obtain ⟨hg, rfl⟩ := stepFn_restart_inv h
      exact ⟨fun _ => rfl, fun h2 => GameState.noConfusion h2,
        fun _ hl => Option.noConfusion hl⟩

theorem runFrom_preserves_inv :
    ∀ (evs : List GEvent) {c c' : ContainerState},
      ContainerInv c → runFrom c evs = some c' → ContainerInv c'
  | [], c, c', hinv, h => by
      rw [runFrom] at h
      exact (Option.some.inj h) ▸ hinv
  | e :: evs, c, c', hinv, h => by
      rw [runFrom] at h
      cases hs : stepFn c e with
      | none =>
          rw [hs] at h
          cases h
      | some c1 =>
          rw [hs] at h
          exact runFrom_preserves_inv evs (stepFn_preserves_inv hinv hs) h

theorem runGame_inv {evs : List GEvent} {c : ContainerState}
    (h : runGame evs = some c) : ContainerInv c :=
  runFrom_preserves_inv evs initialContainer_inv h

theorem runFrom_totalTime :
    ∀ (evs : List GEvent) {c c' : ContainerState} (n : Nat),
      runFrom c evs = some c' →
      (c.session.gameState = GameState.playing →
        c.session.totalTime = 30000 * (n : Int)) →
      c'.session.gameState = GameState.playing →
      c'.session.totalTime = 30000 * (skipCountFrom n evs : Int)
  | [], c, c', n, h, hpre, hplay => by
      rw [runFrom] at h
      cases Option.some.inj h
      exact hpre hplay
  | e :: evs, c, c', n, h, hpre, hplay => by
      rw [runFrom] at h
      cases hs : stepFn c e with
      | none =>
          rw [hs] at h
          cases h
      | some c1 =>
          rw [hs] at h
          cases e with
          | start now =>
              obtain ⟨hg, rfl⟩ := stepFn_start_inv hs
              exact runFrom_totalTime evs 0 h (fun _ => by simp [startGame]) hplay
          | complete now =>
              obtain ⟨hg, rfl⟩ := stepFn_complete_inv hs
              refine runFrom_totalTime evs n h (fun hp => ?_) hplay
              by_cases hge : c.session.currentLevel ≥ 5
              · rw [handleLevelComplete_ge now c.session hge] at hp ⊢
                simp [endGame] at hp
              · rw [handleLevelComplete_lt now c.session (by omega)] at hp ⊢
                simpa using hpre (by simpa using hp)
          | skip now now2 =>
              obtain ⟨hg, hshow, rfl⟩ := stepFn_skip_inv hs
              refine runFrom_totalTime evs (n + 1) h (fun hp => ?_) hplay
              rw [handleSkip_eq] at hp ⊢
              by_cases hge : c.session.currentLevel ≥ 5
              · rw [handleLevelComplete_ge now2 _ hge] at hp ⊢
                simp [endGame] at hp
              · rw [handleLevelComplete_lt now2 _ (by omega)] at hp ⊢
                have := hpre hg
                simp only [Nat.cast_add, Nat.cast_one]
                simp [this]
                ring
          | timerFire =>
              obtain ⟨⟨l0, hp0⟩, rfl⟩ := stepFn_timerFire_inv hs
              refine runFrom_totalTime evs n h (fun hp => ?_) hplay
              simpa using hpre (by simpa using hp)
          | restart =>
              obtain ⟨hg, rfl⟩ := stepFn_restart_inv hs
              exact runFrom_totalTime evs 0 h (fun _ => by simp [resetGame]) hplay


/-! ### Microgame instance lemmas -/

theorem dm_tap_locked {s : DirectionMatch.Instance} (i : Nat)
    (hf : s.gameState.feedback ≠ none) :
    DirectionMatch.handleArrowTap s i = s := by
  unfold DirectionMatch.handleArrowTap
  rw [if_pos hf]

theorem dm_tap_miss {s : DirectionMatch.Instance} {i : Nat}
    (hf : s.gameState.feedback = none)
    (hm : s.gameState.arrows.get? i = none) :
    DirectionMatch.handleArrowTap s i = s := by
  unfold DirectionMatch.handleArrowTap
  rw [if_neg (by simp [hf])]
  rw [hm]

theorem dm_tap_wrong {s : DirectionMatch.Instance} {i : Nat}
    {a : DirectionMatch.ArrowConfig}
    (hf : s.gameState.feedback = none)
    (hm : s.gameState.arrows.get? i = some a) (hta : a.isTarget = false) :
    DirectionMatch.handleArrowTap s i =
      { s with gameState := { s.gameState with feedback := some i }
               pendingReset := true } := by
  unfold DirectionMatch.handleArrowTap
  rw [if_neg (by simp [hf])]
  rw [hm]
  simp [hta]

theorem dm_tap_correct {s : DirectionMatch.Instance} {i : Nat}
    {a : DirectionMatch.ArrowConfig}
    (hf : s.gameState.feedback = none)
    (hm : s.gameState.arrows.get? i = some a) (hta : a.isTarget = true) :
    DirectionMatch.handleArrowTap s i =
      { s with gameState := { s.gameState with feedback := some i }
               pendingComplete := true } := by
  unfold DirectionMatch.handleArrowTap
  rw [if_neg (by simp [hf])]
  rw [hm]
  simp [hta]

theorem dm_handleArrowTap_arrows (s : DirectionMatch.Instance) (i : Nat) :
    (DirectionMatch.handleArrowTap s i).gameState.arrows = s.gameState.arrows := by
  unfold DirectionMatch.handleArrowTap
  split
  · rfl
  · split
    · rfl
    · split <;> rfl

theorem dm_handleArrowTap_completions (s : DirectionMatch.Instance) (i : Nat) :
    (DirectionMatch.handleArrowTap s i).completions = s.completions := by
  unfold DirectionMatch.handleArrowTap
  split
  · rfl
  · split
    · rfl
    · split <;> rfl

theorem dm_step_arrows {s s' : DirectionMatch.Instance} {e : MGEvent}
    (h : DirectionMatch.step s e = some s') :
    s'.gameState.arrows = s.gameState.arrows := by
  cases e with
  | tap i =>
      simp only [DirectionMatch.step] at h
      cases Option.some.inj h
      exact dm_handleArrowTap_arrows s i
  | fireComplete =>
      simp only [DirectionMatch.step] at h
      split at h
      · cases Option.some.inj h
        rfl
      · cases h
  | fireReset =>
      simp only [DirectionMatch.step] at h
      split at h
      · cases Option.some.inj h
        rfl
      · cases h

theorem dm_run_arrows :
    ∀ (evs : List MGEvent) {s s' : DirectionMatch.Instance},
      DirectionMatch.run s evs = some s' →
      s'.gameState.arrows = s.gameState.arrows
  | [], s, s', h => by
      rw [DirectionMatch.run] at h
      cases Option.some.inj h
      rfl
  | e :: evs, s, s', h => by
      rw [DirectionMatch.run] at h
      cases hs : DirectionMatch.step s e with
      | none =>
          rw [hs] at h
          cases h
      | some s1 =>
          rw [hs] at h
          rw [dm_run_arrows evs h, dm_step_arrows hs]

theorem dm_mount_inv (t : DirectionMatch.Direction)
    (sh : List DirectionMatch.Direction) :
    DirectionMatch.Inv (DirectionMatch.mount t sh) :=
  Or.inl ⟨rfl, rfl, rfl, rfl⟩

theorem dm_step_inv {s s' : DirectionMatch.Instance} {e : MGEvent}
    (hinv : DirectionMatch.Inv s) (h : DirectionMatch.step s e = some s') :
    DirectionMatch.Inv s' := by
  cases e with
  | tap i =>
      simp only [DirectionMatch.step] at h
      cases Option.some.inj h
      rcases hinv with ⟨hf, hpc, hpr, hc⟩ | ⟨⟨j, hf⟩, hpc, hpr, hc⟩ |
        ⟨⟨j, hf⟩, hpc, hpr, hc⟩ | ⟨⟨j, hf⟩, hpc, hpr, hc⟩
      · cases hm : s.gameState.arrows.get? i with
        | none =>
            rw [dm_tap_miss hf hm]
            exact Or.inl ⟨hf, hpc, hpr, hc⟩
        | some a =>
            cases hta : a.isTarget
            · rw [dm_tap_wrong hf hm hta]
              exact Or.inr (Or.inl ⟨⟨i, rfl⟩, hpc, rfl, hc⟩)
            · rw [dm_tap_correct hf hm hta]
              exact Or.inr (Or.inr (Or.inl ⟨⟨i, rfl⟩, rfl, hpr, hc⟩))
      · rw [dm_tap_locked i (by simp [hf])]
        exact Or.inr (Or.inl ⟨⟨j, hf⟩, hpc, hpr, hc⟩)
      · rw [dm_tap_locked i (by simp [hf])]
        exact Or.inr (Or.inr (Or.inl ⟨⟨j, hf⟩, hpc, hpr, hc⟩))
      · rw [dm_tap_locked i (by simp [hf])]
        exact Or.inr (Or.inr (Or.inr ⟨⟨j, hf⟩, hpc, hpr, hc⟩))
  | fireComplete =>
      simp only [DirectionMatch.step] at h
      split at h
      · cases Option.some.inj h
        rcases hinv with ⟨hf, hpc, hpr, hc⟩ | ⟨⟨j, hf⟩, hpc, hpr, hc⟩ |
          ⟨⟨j, hf⟩, hpc, hpr, hc⟩ | ⟨⟨j, hf⟩, hpc, hpr, hc⟩
        · simp_all
        · simp_all
        · exact Or.inr (Or.inr (Or.inr ⟨⟨j, hf⟩, rfl, hpr, by simp [hc]⟩))
        · simp_all
      · cases h
  | fireReset =>
      simp only [DirectionMatch.step] at h
      split at h
      · cases Option.some.inj h
        rcases hinv with ⟨hf, hpc, hpr, hc⟩ | ⟨⟨j, hf⟩, hpc, hpr, hc⟩ |
          ⟨⟨j, hf⟩, hpc, hpr, hc⟩ | ⟨⟨j, hf⟩, hpc, hpr, hc⟩
        · simp_all
        · exact Or.inl ⟨rfl, hpc, rfl, hc⟩
        · simp_all
        · simp_all
      · cases h

theorem dm_run_inv :
    ∀ (evs : List MGEvent) {s s' : DirectionMatch.Instance},
      DirectionMatch.Inv s → DirectionMatch.run s evs = some s' →
      DirectionMatch.Inv s'
  | [], s, s', hinv, h => by
      rw [DirectionMatch.run] at h
      cases Option.some.inj h
      exact hinv
  | e :: evs, s, s', hinv, h => by
      rw [DirectionMatch.run] at h
      cases hs : DirectionMatch.step s e with
      | none =>
          rw [hs] at h
          cases h
      | some s1 =>
          rw [hs] at h
          exact dm_run_inv evs (dm_step_inv hinv hs) h

theorem cm_tap_locked {s : ColorMatch.Instance} (i : Nat)
    (hf : s.feedback ≠ ColorMatch.Feedback.noFeedback) :
    ColorMatch.handleOptionTap s i = s := by
  unfold ColorMatch.handleOptionTap
  rw [if_pos hf]

theorem cm_tap_miss {s : ColorMatch.Instance} {i : Nat}
    (hf : s.feedback = ColorMatch.Feedback.noFeedback)
    (hm : s.gameState.options.get? i = none) :
    ColorMatch.handleOptionTap s i = s := by
  unfold ColorMatch.handleOptionTap
  rw [if_neg (by simp [hf])]
  rw [hm]

theorem cm_tap_wrong {s : ColorMatch.Instance} {i : Nat}
    {o : ColorMatch.ColorOption}
    (hf : s.feedback = ColorMatch.Feedback.noFeedback)
    (hm : s.gameState.options.get? i = some o) (hc : o.isCorrect = false) :
    ColorMatch.handleOptionTap s i =
      { s with gameState := { s.gameState with selectedIndex := some i }
               feedback := ColorMatch.Feedback.wrong
               pendingReset := true } := by
  unfold ColorMatch.handleOptionTap
  rw [if_neg (by simp [hf])]
  rw [hm]
  simp [hc]

theorem cm_tap_correct {s : ColorMatch.Instance} {i : Nat}
    {o : ColorMatch.ColorOption}
    (hf : s.feedback = ColorMatch.Feedback.noFeedback)
    (hm : s.gameState.options.get? i = some o) (hc : o.isCorrect = true) :
    ColorMatch.handleOptionTap s i =
      { s with gameState := { s.gameState with selectedIndex := some i }
               feedback := ColorMatch.Feedback.correct
               pendingComplete := true } := by
  unfold ColorMatch.handleOptionTap
  rw [if_neg (by simp [hf])]
  rw [hm]
  simp [hc]

theorem cm_handleOptionTap_options (s : ColorMatch.Instance) (i : Nat) :
    (ColorMatch.handleOptionTap s i).gameState.options = s.gameState.options := by
  unfold ColorMatch.handleOptionTap
  split
  · rfl
  · split
    · rfl
    · split <;> rfl

theorem cm_handleOptionTap_completions (s : ColorMatch.Instance) (i : Nat) :
    (ColorMatch.handleOptionTap s i).completions = s.completions := by
  unfold ColorMatch.handleOptionTap
  split
  · rfl
  · split
    · rfl
    · split <;> rfl

theorem cm_step_options {s s' : ColorMatch.Instance} {e : MGEvent}
    (h : ColorMatch.step s e = some s') :
    s'.gameState.options = s.gameState.options := by
  cases e with
  | tap i =>
      simp only [ColorMatch.step] at h
      cases Option.some.inj h
      exact cm_handleOptionTap_options s i
  | fireComplete =>
      simp only [ColorMatch.step] at h
      split at h
      · cases Option.some.inj h
        rfl
      · cases h
  | fireReset =>
      simp only [ColorMatch.step] at h
      split at h
      · cases Option.some.inj h
        rfl
      · cases h

theorem cm_run_options :
    ∀ (evs : List MGEvent) {s s' : ColorMatch.Instance},
      ColorMatch.run s evs = some s' →
      s'.gameState.options = s.gameState.options
  | [], s, s', h => by
      rw [ColorMatch.run] at h
      cases Option.some.inj h
      rfl
  | e :: evs, s, s', h => by
      rw [ColorMatch.run] at h
      cases hs : ColorMatch.step s e with
      | none =>
          rw [hs] at h
          cases h
      | some s1 =>
          rw [hs] at h
          rw [cm_run_options evs h, cm_step_options hs]

theorem cm_mount_inv (shuffled : List String)
    (optionsShuffle : List ColorMatch.ColorOption → List ColorMatch.ColorOption) :
    ColorMatch.Inv (ColorMatch.mount shuffled optionsShuffle) :=
  Or.inl ⟨rfl, rfl, rfl, rfl⟩

theorem cm_step_inv {s s' : ColorMatch.Instance} {e : MGEvent}
    (hinv : ColorMatch.Inv s) (h : ColorMatch.step s e = some s') :
    ColorMatch.Inv s' := by
  cases e with
  | tap i =>
      simp only [ColorMatch.step] at h
      cases Option.some.inj h
      rcases hinv with ⟨hf, hpc, hpr, hc⟩ | ⟨hf, hpc, hpr, hc⟩ |
        ⟨hf, hpc, hpr, hc⟩ | ⟨hf, hpc, hpr, hc⟩
      · cases hm : s.gameState.options.get? i with
        | none =>
            rw [cm_tap_miss hf hm]
            exact Or.inl ⟨hf, hpc, hpr, hc⟩
        | some o =>
            cases hco : o.isCorrect
            · rw [cm_tap_wrong hf hm hco]
              exact Or.inr (Or.inl ⟨rfl, hpc, rfl, hc⟩)
            · rw [cm_tap_correct hf hm hco]
              exact Or.inr (Or.inr (Or.inl ⟨rfl, rfl, hpr, hc⟩))
      · rw [cm_tap_locked i (by simp [hf])]
        exact Or.inr (Or.inl ⟨hf, hpc, hpr, hc⟩)
      · rw [cm_tap_locked i (by simp [hf])]
        exact Or.inr (Or.inr (Or.inl ⟨hf, hpc, hpr, hc⟩))
      · rw [cm_tap_locked i (by simp [hf])]
        exact Or.inr (Or.inr (Or.inr ⟨hf, hpc, hpr, hc⟩))
  | fireComplete =>
      simp only [ColorMatch.step] at h
      split at h
      · cases Option.some.inj h
        rcases hinv with ⟨hf, hpc, hpr, hc⟩ | ⟨hf, hpc, hpr, hc⟩ |
          ⟨hf, hpc, hpr, hc⟩ | ⟨hf, hpc, hpr, hc⟩
        · simp_all
        · simp_all
        · exact Or.inr (Or.inr (Or.inr ⟨hf, rfl, hpr, by simp [hc]⟩))
        · simp_all
      · cases h
  | fireReset =>
      simp only [ColorMatch.step] at h
      split at h
      · cases Option.some.inj h
        rcases hinv with ⟨hf, hpc, hpr, hc⟩ | ⟨hf, hpc, hpr, hc⟩ |
          ⟨hf, hpc, hpr, hc⟩ | ⟨hf, hpc, hpr, hc⟩
        · simp_all
        · exact Or.inl ⟨rfl, hpc, rfl, hc⟩
        · simp_all
        · simp_all
      · cases h

theorem cm_run_inv :
    ∀ (evs : List MGEvent) {s s' : ColorMatch.Instance},
      ColorMatch.Inv s → ColorMatch.run s evs = some s' →
      ColorMatch.Inv s'
  | [], s, s', hinv, h => by
      rw [ColorMatch.run] at h
      cases Option.some.inj h
      exact hinv
  | e :: evs, s, s', hinv, h => by
      rw [ColorMatch.run] at h
      cases hs : ColorMatch.step s e with
      | none =>
          rw [hs] at h
          cases h
      | some s1 =>
          rw [hs] at h
          exact cm_run_inv evs (cm_step_inv hinv hs) h

/-! ### Claim theorems -/

/-- Claim C1 (code-bug evidence).  The claim states that skipping a
level leaves levelOutcomes[i] = (completed:false, skipped:true) and
adds exactly 30000 ms of penalty, the advancement not re-recording the
outcome.  Evaluating the code on a concrete reachable input — start at
t=1000, the 5-second visibility timeout fires, skip level 1 at t=7000 —
shows the advancement inside handleSkip does re-record the outcome
from its stale closure array: the stored outcome of level 1 is
(completed:true, skipped:false, timeSpent:6000), while the 30000 ms
penalty was added and the game advanced to level 2. -/
theorem skip_outcome_overwritten_on_code :
    (runGame [GEvent.start 1000, GEvent.timerFire, GEvent.skip 7000 7000]).map
        (fun c => (c.session.levelResults.get? 0, c.session.totalTime,
          c.session.gameState, c.session.currentLevel)) =
      some (some { completed := true, skipped := false, timeSpent := 6000 },
        30000, GameState.playing, 2) := by
  decide

/-- Claim C2 (code-bug evidence).  The claim states that honestly
completing level i leaves levelOutcomes[i] = (completed:true,
skipped:false, timeSpent = now - start), including for level 5.
Evaluating the code on an honest full playthrough — start at t=1000,
levels completed at t=2000..6000 — shows levels 1..4 are recorded as
claimed, but level 5's completion is never recorded: endGame does not
write the freshly built newLevelResults, so slot 5 keeps the default
(completed:false, skipped:false, timeSpent:0). -/
theorem final_level_completion_unrecorded_on_code :
    (runGame [GEvent.start 1000, GEvent.complete 2000, GEvent.complete 3000,
        GEvent.complete 4000, GEvent.complete 5000, GEvent.complete 6000]).map
        (fun c => (c.session.gameState, c.session.levelResults.get? 0,
          c.session.levelResults.get? 3, c.session.levelResults.get? 4,
          c.session.totalTime)) =
      some (GameState.completed,
        some { completed := true, skipped := false, timeSpent := 1000 },
        some { completed := true, skipped := false, timeSpent := 4000 },
        some { completed := false, skipped := false, timeSpent := 0 },
        5000) := by
  decide

/-- Claim C3 (code-bug evidence).  The claim states that after the 5th
level is completed or skipped, totalTime becomes (finish timestamp -
sessionStartTimestamp) plus the accumulated penalties of every skip,
including a skip of level 5 itself.  Evaluating the code on a run that
completes levels 1..4 and skips level 5 at t=9000 (start at t=1000)
shows the final totalTime is 8000 = 9000 - 1000: endGame computes the
final time from its stale closure totalTime, so the 30000 ms penalty
of the level-5 skip is lost (the claim requires 38000). -/
theorem final_time_loses_level5_skip_penalty_on_code :
    (runGame [GEvent.start 1000, GEvent.complete 2000, GEvent.complete 2500,
        GEvent.complete 3000, GEvent.complete 3500, GEvent.timerFire,
        GEvent.skip 9000 9000]).map
        (fun c => (c.session.gameState, c.session.levelResults.get? 4,
          c.session.totalTime)) =
      some (GameState.completed,
        some { completed := false, skipped := true, timeSpent := 8000 },
        8000) := by
  decide

/-- Claim C4 (counterexample).  The claim states currentLevelIndex
increases by exactly 1 on every completion or skip taken while phase
is playing.  In the reachable playing state with currentLevel = 5
(start at t=1000, four honest completions), taking the completion
transition leaves currentLevel at 5 — the container finishes instead
of incrementing — so the post-state index is not the pre-state index
plus 1. -/
theorem level5_completion_keeps_index :
    ((runGame [GEvent.start 1000, GEvent.complete 2000, GEvent.complete 3000,
        GEvent.complete 4000, GEvent.complete 5000]).map
        (fun c => (c.session.gameState, c.session.currentLevel)) =
      some (GameState.playing, 5)) ∧
    (((runGame [GEvent.start 1000, GEvent.complete 2000, GEvent.complete 3000,
        GEvent.complete 4000, GEvent.complete 5000]).bind
        (fun c => stepFn c (GEvent.complete 6000))).map
        (fun c => c.session.currentLevel) = some 5) ∧
    some (5 : Nat) ≠ some (5 + 1) := by
  refine ⟨by decide, by decide, by decide⟩

/-- Claim C4 (amended): a completion or skip taken at a level below 5
increments currentLevel by exactly 1; a completion or skip taken at
level 5 leaves it unchanged (the session finishes); currentLevel never
decreases on any transition other than restart; and in every
reachable playing state currentLevel lies in [1,5]. -/
theorem currentLevel_progression :
    (∀ (c c' : ContainerState) (now : Int),
       stepFn c (GEvent.complete now) = some c' →
       c.session.currentLevel < 5 →
       c'.session.currentLevel = c.session.currentLevel + 1) ∧
    (∀ (c c' : ContainerState) (now now2 : Int),
       stepFn c (GEvent.skip now now2) = some c' →
       c.session.currentLevel < 5 →
       c'.session.currentLevel = c.session.currentLevel + 1) ∧
    (∀ (c c' : ContainerState) (now : Int),
       stepFn c (GEvent.complete now) = some c' →
       5 ≤ c.session.currentLevel →
       c'.session.currentLevel = c.session.currentLevel ∧
       c'.session.gameState = GameState.completed) ∧
    (∀ (c c' : ContainerState) (now now2 : Int),
       stepFn c (GEvent.skip now now2) = some c' →
       5 ≤ c.session.currentLevel →
       c'.session.currentLevel = c.session.currentLevel ∧
       c'.session.gameState = GameState.completed) ∧
    (∀ (evs : List GEvent) (c : ContainerState) (e : GEvent) (c' : ContainerState),
       runGame evs = some c → e ≠ GEvent.restart → stepFn c e = some c' →
       c.session.currentLevel ≤ c'.session.currentLevel) ∧
    (∀ (evs : List GEvent) (c : ContainerState),
       runGame evs = some c → c.session.gameState = GameState.playing →
       1 ≤ c.session.currentLevel ∧ c.session.currentLevel ≤ 5) := by
  refine ⟨?_, ?_, ?_, ?_, ?_, ?_⟩
  · intro c c' now h hlt
    obtain ⟨hg, rfl⟩ := stepFn_complete_inv h
    rw [handleLevelComplete_lt now c.session hlt]
  · intro c c' now now2 h hlt
    obtain ⟨hg, hshow, rfl⟩ := stepFn_skip_inv h
    rw [handleSkip_eq, handleLevelComplete_lt now2 _ hlt]
  · intro c c' now h hge
    obtain ⟨hg, rfl⟩ := stepFn_complete_inv h
    rw [handleLevelComplete_ge now c.session hge]
    exact ⟨by simp [endGame], by simp [endGame]⟩
  · intro c c' now now2 h hge
    obtain ⟨hg, hshow, rfl⟩ := stepFn_skip_inv h
    rw [handleSkip_eq, handleLevelComplete_ge now2 _ hge]
    exact ⟨by simp [endGame], by simp [endGame]⟩
  · intro evs c e c' hrun hne h
    have hinv := runGame_inv hrun
    cases e with
    | start now =>
        obtain ⟨hg, rfl⟩ := stepFn_start_inv h
        rw [hinv.1 hg]
        simp [initialContainer, initialSession, startGame]
    | complete now =>
        obtain ⟨hg, rfl⟩ := stepFn_complete_inv h
        by_cases hge : c.session.currentLevel ≥ 5
        · rw [handleLevelComplete_ge now c.session hge]
          simp [endGame]
        · rw [handleLevelComplete_lt now c.session (by omega)]
          simp
    | skip now now2 =>
        obtain ⟨hg, hshow, rfl⟩ := stepFn_skip_inv h
        rw [handleSkip_eq]
        by_cases hge : c.session.currentLevel ≥ 5
        · rw [handleLevelComplete_ge now2 _ hge]
          simp [endGame]
        · rw [handleLevelComplete_lt now2 _ (by omega)]
          simp
    | timerFire =>
        obtain ⟨_, rfl⟩ := stepFn_timerFire_inv h
        simp
    | restart => exact absurd rfl hne
  · intro evs c h hp
    exact ⟨((runGame_inv h).2.1 hp).1, ((runGame_inv h).2.1 hp).2.1⟩

/-- Witness for C4's amended theorem: from the concrete reachable
state right after starting at t=0 (level 1), completing at t=10 yields
level 2 = 1 + 1, and the bounds hold in the post-start state. -/
theorem currentLevel_progression_witness :
    afterFirstComplete.session.currentLevel =
      afterStartContainer.session.currentLevel + 1 ∧
    (1 ≤ afterStartContainer.session.currentLevel ∧
      afterStartContainer.session.currentLevel ≤ 5) :=
  ⟨currentLevel_progression.1 afterStartContainer afterFirstComplete 10
      (by decide) (by decide),
    currentLevel_progression.2.2.2.2.2 [GEvent.start 0] afterStartContainer
      (by decide) (by decide)⟩

/-- Claim C5: taking the restart transition from any completed (or
playing) state yields the default session: phase idle, currentLevel 1,
startTime unset, all five outcome slots back to the default record,
totalTime 0 and the skip button hidden; at the container level the
pending visibility timeout is cancelled as well. -/
theorem restart_resets_session (s : GameContainerState)
    (_h : s.gameState = GameState.completed ∨ s.gameState = GameState.playing) :
    resetGame s = initialSession ∧
    (resetGame s).gameState = GameState.idle ∧
    (resetGame s).currentLevel = 1 ∧
    (resetGame s).startTime = none ∧
    (resetGame s).levelResults =
      List.replicate 5 { completed := false, skipped := false, timeSpent := 0 } ∧
    (resetGame s).totalTime = 0 ∧
    (resetGame s).showSkipButton = false ∧
    (∀ c : ContainerState, c.session = s →
       c.session.gameState = GameState.completed →
       stepFn c GEvent.restart =
         some { session := initialSession, pendingTimer := none }) := by
  refine ⟨rfl, rfl, rfl, rfl, rfl, rfl, rfl, ?_⟩
  intro c _hcs hcg
  simp [stepFn, hcg, resetGame, initialSession]

/-- Witness for C5: restarting from a concrete completed session. -/
theorem restart_resets_session_witness :
    resetGame aCompletedSession = initialSession ∧
    (resetGame aCompletedSession).currentLevel = 1 :=
  ⟨(restart_resets_session aCompletedSession (Or.inl rfl)).1,
    (restart_resets_session aCompletedSession (Or.inl rfl)).2.2.1⟩

/-- Claim C6: skipButtonVisible is false immediately after start and
after every completion or skip transition; it becomes true only
through the firing of the pending visibility timeout; in every
reachable state a pending timeout belongs to the level currently being
played (so a stale timeout can never flip visibility for a later
level); and a completion, skip, or restart never leaves the departed
level's timeout pending. -/
theorem skip_visibility_discipline :
    (∀ (c c' : ContainerState) (now : Int),
       stepFn c (GEvent.start now) = some c' →
       c'.session.showSkipButton = false) ∧
    (∀ (c c' : ContainerState) (now : Int),
       stepFn c (GEvent.complete now) = some c' →
       c'.session.showSkipButton = false) ∧
    (∀ (c c' : ContainerState) (now now2 : Int),
       stepFn c (GEvent.skip now now2) = some c' →
       c'.session.showSkipButton = false) ∧
    (∀ (c c' : ContainerState) (e : GEvent),
       stepFn c e = some c' → c.session.showSkipButton = false →
       c'.session.showSkipButton = true → e = GEvent.timerFire) ∧
    (∀ (evs : List GEvent) (c : ContainerState) (l : Nat),
       runGame evs = some c → c.pendingTimer = some l →
       c.session.gameState = GameState.playing ∧ l = c.session.currentLevel) ∧
    (∀ (c c' : ContainerState) (now : Int),
       stepFn c (GEvent.complete now) = some c' →
       c'.pendingTimer ≠ some c.session.currentLevel) ∧
    (∀ (c c' : ContainerState) (now now2 : Int),
       stepFn c (GEvent.skip now now2) = some c' →
       c'.pendingTimer ≠ some c.session.currentLevel) ∧
    (∀ (c c' : ContainerState),
       stepFn c GEvent.restart = some c' → c'.pendingTimer = none) := by
  refine ⟨?_, ?_, ?_, ?_, ?_, ?_, ?_, ?_⟩
  · intro c c' now h
    obtain ⟨hg, rfl⟩ := stepFn_start_inv h
    rfl
  · intro c c' now h
    obtain ⟨hg, rfl⟩ := stepFn_complete_inv h
    by_cases hge : c.session.currentLevel ≥ 5
    · rw [handleLevelComplete_ge now c.session hge]
      simp [endGame]
    · rw [handleLevelComplete_lt now c.session (by omega)]
  · intro c c' now now2 h
    obtain ⟨hg, hshow, rfl⟩ := stepFn_skip_inv h
    rw [handleSkip_eq]
    by_cases hge : c.session.currentLevel ≥ 5
    · rw [handleLevelComplete_ge now2 _ hge]
      simp [endGame]
    · rw [handleLevelComplete_lt now2 _ (by omega)]
  · intro c c' e h hfalse htrue
    cases e with
    | start now =>
        obtain ⟨hg, rfl⟩ := stepFn_start_inv h
        exact absurd htrue (by simp [startGame])
    | complete now =>
        obtain ⟨hg, rfl⟩ := stepFn_complete_inv h
        by_cases hge : c.session.currentLevel ≥ 5
        · rw [handleLevelComplete_ge now c.session hge] at htrue
          simp [endGame] at htrue
        · rw [handleLevelComplete_lt now c.session (by omega)] at htrue
          simp at htrue
    | skip now now2 =>
        obtain ⟨hg, hshow, rfl⟩ := stepFn_skip_inv h
        rw [handleSkip_eq] at htrue
        by_cases hge : c.session.currentLevel ≥ 5
        · rw [handleLevelComplete_ge now2 _ hge] at htrue
          simp [endGame] at htrue
        · rw [handleLevelComplete_lt now2 _ (by omega)] at htrue
          simp at htrue
    | timerFire => rfl
    | restart =>
        obtain ⟨hg, rfl⟩ := stepFn_restart_inv h
        exact absurd htrue (by simp [resetGame])
  · intro evs c l h hp
    exact (runGame_inv h).2.2 l hp
  · intro c c' now h
    obtain ⟨hg, rfl⟩ := stepFn_complete_inv h
    by_cases hge : c.session.currentLevel ≥ 5
    · rw [if_pos hge]
      simp
    · rw [if_neg hge]
      simp
  · intro c c' now now2 h
    obtain ⟨hg, hshow, rfl⟩ := stepFn_skip_inv h
    by_cases hge : c.session.currentLevel ≥ 5
    · rw [if_pos hge]
      simp
    · rw [if_neg hge]
      simp
  · intro c c' h
    obtain ⟨hg, rfl⟩ := stepFn_restart_inv h
    rfl

/-- Witness for C6: the state reached by pressing Start at t=0 has the
skip button hidden, and in the reachable state after start at t=1000,
timeout fire, and skip at t=2000, the pending timeout belongs to the
level being played. -/
theorem skip_visibility_discipline_witness :
    afterStartContainer.session.showSkipButton = false ∧
    (afterOneSkip.session.gameState = GameState.playing ∧
      2 = afterOneSkip.session.currentLevel) :=
  ⟨skip_visibility_discipline.1 initialContainer afterStartContainer 0 (by decide),
    skip_visibility_discipline.2.2.2.2.1
      [GEvent.start 1000, GEvent.timerFire, GEvent.skip 2000 2000]
      afterOneSkip 2 (by decide) (by decide)⟩

/-- Claim C8: when sessionStartTimestamp is unset, the elapsed
component of every time computation of the transition handlers is
zero: the recorded timeSpent of a completion and of a skip is 0 and
the transition still advances the level, and finishing yields a final
totalTime equal to the accumulated value alone, the session reaching
the completed phase. -/
theorem unset_startTime_treated_as_zero (s0 : GameContainerState)
    (now now2 : Int) (h : s0.startTime = none) :
    elapsedSince s0.startTime now = 0 ∧
    (endGame s0 now s0).totalTime = s0.totalTime ∧
    (endGame s0 now s0).gameState = GameState.completed ∧
    (s0.currentLevel < 5 → s0.currentLevel - 1 < s0.levelResults.length →
       ((handleLevelComplete s0 now s0).levelResults.get? (s0.currentLevel - 1)).map
           LevelResult.timeSpent = some 0 ∧
       (handleLevelComplete s0 now s0).currentLevel = s0.currentLevel + 1) ∧
    (s0.currentLevel < 5 → s0.currentLevel - 1 < s0.levelResults.length →
       ((handleSkip s0 now now2).levelResults.get? (s0.currentLevel - 1)).map
           LevelResult.timeSpent = some 0 ∧
       (handleSkip s0 now now2).currentLevel = s0.currentLevel + 1) := by
  have hz : ∀ t : Int, elapsedSince s0.startTime t = 0 := by
    intro t
    simp [elapsedSince, jsTruthy, h]
  refine ⟨hz now, by simp [endGame, jsTruthy, h], by simp [endGame], ?_, ?_⟩
  · intro hlt hlen
    rw [handleLevelComplete_lt now s0 hlt]
    refine ⟨?_, rfl⟩
    simp only [List.get?_eq_getElem?]
    rw [List.getElem?_set_eq_of_lt _ hlen]
    simp [hz]
  · intro hlt hlen
    rw [handleSkip_eq, handleLevelComplete_lt now2 _ hlt]
    refine ⟨?_, rfl⟩
    simp only [List.get?_eq_getElem?]
    rw [List.getElem?_set_eq_of_lt _ hlen]
    simp [hz]

/-- Witness for C8 at the initial (unset-timestamp) session. -/
theorem unset_startTime_treated_as_zero_witness :
    elapsedSince initialSession.startTime 42 = 0 ∧
    (endGame initialSession 42 initialSession).totalTime =
      initialSession.totalTime :=
  ⟨(unset_startTime_treated_as_zero initialSession 42 43 rfl).1,
    (unset_startTime_treated_as_zero initialSession 42 43 rfl).2.1⟩

/-- Claim C9: for a 1-based level i and a five-slot outcome array, the
progress indicator's status for slot i is read from the outcome when
i is below the current level (completed if the outcome is completed,
else skipped if it was skipped), is current when i equals the current
level, and is pending (not yet reached) when i is above it;
getLevelStatus is a pure function of exactly the two props. -/
theorem progress_status_projection (currentLevel : Nat)
    (levelResults : List LevelResult) (i : Nat) (r : LevelResult)
    (h1 : 1 ≤ i) (hr : levelResults.get? (i - 1) = some r) :
    (i < currentLevel → r.completed = true →
       getLevelStatus currentLevel levelResults (i - 1) = "completed") ∧
    (i < currentLevel → r.completed = false → r.skipped = true →
       getLevelStatus currentLevel levelResults (i - 1) = "skipped") ∧
    (i = currentLevel →
       getLevelStatus currentLevel levelResults (i - 1) = "current") ∧
    (currentLevel < i →
       getLevelStatus currentLevel levelResults (i - 1) = "pending") := by
  have hi : i - 1 + 1 = i := Nat.sub_add_cancel h1
  refine ⟨?_, ?_, ?_, ?_⟩
  · intro hlt hc
    unfold getLevelStatus
    rw [hi, if_pos hlt, hr]
    simp [hc]
  · intro hlt hcf hs
    unfold getLevelStatus
    rw [hi, if_pos hlt, hr]
    simp [hcf, hs]
  · intro heq
    unfold getLevelStatus
    rw [hi, if_neg (by omega), if_pos heq]
  · intro hgt
    unfold getLevelStatus
    rw [hi, if_neg (by omega), if_neg (by omega)]

/-- Witness for C9 on a concrete array: slot 1 completed, slot 2
skipped, current level 3. -/
theorem progress_status_projection_witness :
    getLevelStatus 3
      [{ completed := true, skipped := false, timeSpent := 5 },
       { completed := false, skipped := true, timeSpent := 7 },
       { completed := false, skipped := false, timeSpent := 0 },
       { completed := false, skipped := false, timeSpent := 0 },
       { completed := false, skipped := false, timeSpent := 0 }] 0 = "completed" ∧
    getLevelStatus 3
      [{ completed := true, skipped := false, timeSpent := 5 },
       { completed := false, skipped := true, timeSpent := 7 },
       { completed := false, skipped := false, timeSpent := 0 },
       { completed := false, skipped := false, timeSpent := 0 },
       { completed := false, skipped := false, timeSpent := 0 }] 2 = "current" :=
  ⟨(progress_status_projection 3 _ 1
      { completed := true, skipped := false, timeSpent := 5 }
      (by decide) (by decide)).1 (by decide) (by decide),
    (progress_status_projection 3 _ 3
      { completed := false, skipped := false, timeSpent := 0 }
      (by decide) (by decide)).2.2.1 (by decide)⟩

/-- Claim C10: the container stores the penalty accumulator and the
final elapsed total in the single field totalTime: in every reachable
playing state totalTime equals 30000 times the number of skips taken
this session (hence a non-negative multiple of 30000); the finish
transition overwrites the same field with the final elapsed total; and
the Timer receives exactly totalTime as its additionalTime prop, so
the live display includes skip penalties immediately. -/
theorem totalTime_penalties_then_final :
    (∀ (evs : List GEvent) (c : ContainerState),
       runGame evs = some c → c.session.gameState = GameState.playing →
       c.session.totalTime = 30000 * (skipCountFrom 0 evs : Int) ∧
       0 ≤ c.session.totalTime) ∧
    (∀ (s0 committed : GameContainerState) (now : Int),
       (endGame s0 now committed).totalTime =
         (if jsTruthy s0.startTime then now - s0.startTime.getD 0 + s0.totalTime
          else s0.totalTime)) ∧
    (∀ s : GameContainerState, (timerProps s).additionalTime = s.totalTime) := by
  refine ⟨?_, fun s0 committed now => rfl, fun s => rfl⟩
  intro evs c h hplay
  rw [runGame] at h
  have heq := runFrom_totalTime evs 0 h (fun hp => absurd hp (by decide)) hplay
  refine ⟨heq, ?_⟩
  rw [heq]
  positivity

/-- Witness for C10 in the reachable playing state after one skip. -/
theorem totalTime_penalties_then_final_witness :
    afterOneSkip.session.totalTime =
      30000 * (skipCountFrom 0
        [GEvent.start 1000, GEvent.timerFire, GEvent.skip 2000 2000] : Int) ∧
    0 ≤ afterOneSkip.session.totalTime :=
  totalTime_penalties_then_final.1
    [GEvent.start 1000, GEvent.timerFire, GEvent.skip 2000 2000]
    afterOneSkip (by decide) (by decide)

theorem dm_run_cons {s s1 : DirectionMatch.Instance} {e : MGEvent}
    (evs : List MGEvent) (h : DirectionMatch.step s e = some s1) :
    DirectionMatch.run s (e :: evs) = DirectionMatch.run s1 evs := by
  rw [DirectionMatch.run, h]

theorem cm_run_cons {s s1 : ColorMatch.Instance} {e : MGEvent}
    (evs : List MGEvent) (h : ColorMatch.step s e = some s1) :
    ColorMatch.run s (e :: evs) = ColorMatch.run s1 evs := by
  rw [ColorMatch.run, h]

/-- Claim C7: for a DirectionMatch or ColorMatch instance and any
event sequence, the completion callback is invoked at most once; an
incorrect attempt neither invokes nor schedules it; two incorrect
attempts followed by a correct one produce exactly one invocation; and
any reachable state with no invocation yet can still be driven to
exactly one invocation (incorrect attempts are recoverable). -/
theorem microgame_completion_once :
    (∀ (t : DirectionMatch.Direction) (sh : List DirectionMatch.Direction)
       (evs : List MGEvent) (s : DirectionMatch.Instance),
       DirectionMatch.run (DirectionMatch.mount t sh) evs = some s →
       s.completions ≤ 1) ∧
    (∀ (s : DirectionMatch.Instance) (i : Nat) (a : DirectionMatch.ArrowConfig),
       s.gameState.arrows.get? i = some a → a.isTarget = false →
       (DirectionMatch.handleArrowTap s i).completions = s.completions ∧
       (DirectionMatch.handleArrowTap s i).pendingComplete = s.pendingComplete) ∧
    (∀ (t : DirectionMatch.Direction) (sh : List DirectionMatch.Direction)
       (w1 w2 ti : Nat) (a1 a2 at1 : DirectionMatch.ArrowConfig),
       (DirectionMatch.mount t sh).gameState.arrows.get? w1 = some a1 →
       a1.isTarget = false →
       (DirectionMatch.mount t sh).gameState.arrows.get? w2 = some a2 →
       a2.isTarget = false →
       (DirectionMatch.mount t sh).gameState.arrows.get? ti = some at1 →
       at1.isTarget = true →
       ∃ s, DirectionMatch.run (DirectionMatch.mount t sh)
           [MGEvent.tap w1, MGEvent.fireReset, MGEvent.tap w2,
            MGEvent.fireReset, MGEvent.tap ti, MGEvent.fireComplete] = some s ∧
         s.completions = 1) ∧
    (∀ (t : DirectionMatch.Direction) (sh : List DirectionMatch.Direction)
       (evs : List MGEvent) (s : DirectionMatch.Instance) (ti : Nat)
       (at1 : DirectionMatch.ArrowConfig),
       DirectionMatch.run (DirectionMatch.mount t sh) evs = some s →
       s.completions = 0 →
       (DirectionMatch.mount t sh).gameState.arrows.get? ti = some at1 →
       at1.isTarget = true →
       ∃ (evs2 : List MGEvent) (s' : DirectionMatch.Instance),
         DirectionMatch.run s evs2 = some s' ∧ s'.completions = 1) ∧
    (∀ (sh : List String)
       (os : List ColorMatch.ColorOption → List ColorMatch.ColorOption)
       (evs : List MGEvent) (s : ColorMatch.Instance),
       ColorMatch.run (ColorMatch.mount sh os) evs = some s →
       s.completions ≤ 1) ∧
    (∀ (s : ColorMatch.Instance) (i : Nat) (o : ColorMatch.ColorOption),
       s.gameState.options.get? i = some o → o.isCorrect = false →
       (ColorMatch.handleOptionTap s i).completions = s.completions ∧
       (ColorMatch.handleOptionTap s i).pendingComplete = s.pendingComplete) ∧
    (∀ (sh : List String)
       (os : List ColorMatch.ColorOption → List ColorMatch.ColorOption)
       (w1 w2 ti : Nat) (o1 o2 oc : ColorMatch.ColorOption),
       (ColorMatch.mount sh os).gameState.options.get? w1 = some o1 →
       o1.isCorrect = false →
       (ColorMatch.mount sh os).gameState.options.get? w2 = some o2 →
       o2.isCorrect = false →
       (ColorMatch.mount sh os).gameState.options.get? ti = some oc →
       oc.isCorrect = true →
       ∃ s, ColorMatch.run (ColorMatch.mount sh os)
           [MGEvent.tap w1, MGEvent.fireReset, MGEvent.tap w2,
            MGEvent.fireReset, MGEvent.tap ti, MGEvent.fireComplete] = some s ∧
         s.completions = 1) ∧
    (∀ (sh : List String)
       (os : List ColorMatch.ColorOption → List ColorMatch.ColorOption)
       (evs : List MGEvent) (s : ColorMatch.Instance) (ti : Nat)
       (oc : ColorMatch.ColorOption),
       ColorMatch.run (ColorMatch.mount sh os) evs = some s →
       s.completions = 0 →
       (ColorMatch.mount sh os).gameState.options.get? ti = some oc →
       oc.isCorrect = true →
       ∃ (evs2 : List MGEvent) (s' : ColorMatch.Instance),
         ColorMatch.run s evs2 = some s' ∧ s'.completions = 1) := by
  refine ⟨?_, ?_, ?_, ?_, ?_, ?_, ?_, ?_⟩
  · intro t sh evs s hrun
    have hinv := dm_run_inv evs (dm_mount_inv t sh) hrun
    rcases hinv with ⟨_, _, _, hc⟩ | ⟨_, _, _, hc⟩ | ⟨_, _, _, hc⟩ | ⟨_, _, _, hc⟩ <;>
      omega
  · intro s i a hm hta
    by_cases hf : s.gameState.feedback = none
    · rw [dm_tap_wrong hf hm hta]
      exact ⟨rfl, rfl⟩
    · rw [dm_tap_locked i hf]
      exact ⟨rfl, rfl⟩
  · intro t sh w1 w2 ti a1 a2 at1 hw1 ha1 hw2 ha2 hti hat
    have h1 : DirectionMatch.step (DirectionMatch.mount t sh) (MGEvent.tap w1) =
        some { DirectionMatch.mount t sh with
                 gameState := { (DirectionMatch.mount t sh).gameState with
                                  feedback := some w1 }
                 pendingReset := true } := by
      simp only [DirectionMatch.step]
      rw [dm_tap_wrong rfl hw1 ha1]
    have h2 : DirectionMatch.step
        { DirectionMatch.mount t sh with
            gameState := { (DirectionMatch.mount t sh).gameState with
                             feedback := some w1 }
            pendingReset := true } MGEvent.fireReset =
        some (DirectionMatch.mount t sh) := rfl
    have h3 : DirectionMatch.step (DirectionMatch.mount t sh) (MGEvent.tap w2) =
        some { DirectionMatch.mount t sh with
                 gameState := { (DirectionMatch.mount t sh).gameState with
                                  feedback := some w2 }
                 pendingReset := true } := by
      simp only [DirectionMatch.step]
      rw [dm_tap_wrong rfl hw2 ha2]
    have h4 : DirectionMatch.step
        { DirectionMatch.mount t sh with
            gameState := { (DirectionMatch.mount t sh).gameState with
                             feedback := some w2 }
            pendingReset := true } MGEvent.fireReset =
        some (DirectionMatch.mount t sh) := rfl
    have h5 : DirectionMatch.step (DirectionMatch.mount t sh) (MGEvent.tap ti) =
        some { DirectionMatch.mount t sh with
                 gameState := { (DirectionMatch.mount t sh).gameState with
                                  feedback := some ti }
                 pendingComplete := true } := by
      simp only [DirectionMatch.step]
      rw [dm_tap_correct rfl hti hat]
    have h6 : DirectionMatch.step
        { DirectionMatch.mount t sh with
            gameState := { (DirectionMatch.mount t sh).gameState with
                             feedback := some ti }
            pendingComplete := true } MGEvent.fireComplete =
        some { DirectionMatch.mount t sh with
                 gameState := { (DirectionMatch.mount t sh).gameState with
                                  feedback := some ti }
                 pendingComplete := false
                 completions := 1 } := rfl
    refine ⟨{ DirectionMatch.mount t sh with
                gameState := { (DirectionMatch.mount t sh).gameState with
                                 feedback := some ti }
                pendingComplete := false
                completions := 1 }, ?_, rfl⟩
    exact (dm_run_cons _ h1).trans ((dm_run_cons _ h2).trans
      ((dm_run_cons _ h3).trans ((dm_run_cons _ h4).trans
        ((dm_run_cons _ h5).trans ((dm_run_cons _ h6).trans rfl)))))
  · intro t sh evs s ti at1 hrun hc0 hti hat
    have hinv := dm_run_inv evs (dm_mount_inv t sh) hrun
    have hti2 : s.gameState.arrows.get? ti = some at1 := by
      rw [dm_run_arrows evs hrun]
      exact hti
    rcases hinv with ⟨hf, hpc, hpr, _⟩ | ⟨⟨j, hf⟩, hpc, hpr, _⟩ |
      ⟨⟨j, hf⟩, hpc, hpr, _⟩ | ⟨⟨j, hf⟩, hpc, hpr, hc1⟩
    · have h1 : DirectionMatch.step s (MGEvent.tap ti) =
          some { s with gameState := { s.gameState with feedback := some ti }
                        pendingComplete := true } := by
        simp only [DirectionMatch.step]
        rw [dm_tap_correct hf hti2 hat]
      have h2 : DirectionMatch.step
          { s with gameState := { s.gameState with feedback := some ti }
                   pendingComplete := true } MGEvent.fireComplete =
          some { s with gameState := { s.gameState with feedback := some ti }
                        pendingComplete := false
                        completions := s.completions + 1 } := rfl
      refine ⟨[MGEvent.tap ti, MGEvent.fireComplete],
        { s with gameState := { s.gameState with feedback := some ti }
                 pendingComplete := false
                 completions := s.completions + 1 }, ?_, ?_⟩
      · exact (dm_run_cons _ h1).trans ((dm_run_cons _ h2).trans rfl)
      · simp [hc0]
    · have h0 : DirectionMatch.step s MGEvent.fireReset =
          some { s with gameState := { s.gameState with feedback := none }
                        pendingReset := false } := by
        simp only [DirectionMatch.step]
        rw [hpr]
        rfl
      have h1 : DirectionMatch.step
          { s with gameState := { s.gameState with feedback := none }
                   pendingReset := false } (MGEvent.tap ti) =
          some { s with gameState := { s.gameState with feedback := some ti }
                        pendingReset := false
                        pendingComplete := true } := by
        simp only [DirectionMatch.step]
        exact congrArg some (dm_tap_correct rfl hti2 hat)
      have h2 : DirectionMatch.step
          { s with gameState := { s.gameState with feedback := some ti }
                   pendingReset := false
                   pendingComplete := true } MGEvent.fireComplete =
          some { s with gameState := { s.gameState with feedback := some ti }
                        pendingReset := false
                        pendingComplete := false
                        completions := s.completions + 1 } := rfl
      refine ⟨[MGEvent.fireReset, MGEvent.tap ti, MGEvent.fireComplete],
        { s with gameState := { s.gameState with feedback := some ti }
                 pendingReset := false
                 pendingComplete := false
                 completions := s.completions + 1 }, ?_, ?_⟩
      · exact (dm_run_cons _ h0).trans ((dm_run_cons _ h1).trans
          ((dm_run_cons _ h2).trans rfl))
      · simp [hc0]
    · have h1 : DirectionMatch.step s MGEvent.fireComplete =
          some { s with pendingComplete := false
                        completions := s.completions + 1 } := by
        simp only [DirectionMatch.step]
        rw [hpc]
        rfl
      refine ⟨[MGEvent.fireComplete],
        { s with pendingComplete := false
                 completions := s.completions + 1 }, ?_, ?_⟩
      · exact (dm_run_cons _ h1).trans rfl
      · simp [hc0]
    · exact absurd (hc0.symm.trans hc1) (by decide)
  · intro sh os evs s hrun
    have hinv := cm_run_inv evs (cm_mount_inv sh os) hrun
    rcases hinv with ⟨_, _, _, hc⟩ | ⟨_, _, _, hc⟩ | ⟨_, _, _, hc⟩ | ⟨_, _, _, hc⟩ <;>
      omega
  · intro s i o hm hco
    by_cases hf : s.feedback = ColorMatch.Feedback.noFeedback
    · rw [cm_tap_wrong hf hm hco]
      exact ⟨rfl, rfl⟩
    · rw [cm_tap_locked i hf]
      exact ⟨rfl, rfl⟩
  · intro sh os w1 w2 ti o1 o2 oc hw1 ho1 hw2 ho2 hti hoc
    have h1 : ColorMatch.step (ColorMatch.mount sh os) (MGEvent.tap w1) =
        some { ColorMatch.mount sh os with
                 gameState := { (ColorMatch.mount sh os).gameState with
                                  selectedIndex := some w1 }
                 feedback := ColorMatch.Feedback.wrong
                 pendingReset := true } := by
      simp only [ColorMatch.step]
      rw [cm_tap_wrong rfl hw1 ho1]
    have h2 : ColorMatch.step
        { ColorMatch.mount sh os with
            gameState := { (ColorMatch.mount sh os).gameState with
                             selectedIndex := some w1 }
            feedback := ColorMatch.Feedback.wrong
            pendingReset := true } MGEvent.fireReset =
        some (ColorMatch.mount sh os) := rfl
    have h3 : ColorMatch.step (ColorMatch.mount sh os) (MGEvent.tap w2) =
        some { ColorMatch.mount sh os with
                 gameState := { (ColorMatch.mount sh os).gameState with
                                  selectedIndex := some w2 }
                 feedback := ColorMatch.Feedback.wrong
                 pendingReset := true } := by
      simp only [ColorMatch.step]
      rw [cm_tap_wrong rfl hw2 ho2]
    have h4 : ColorMatch.step
        { ColorMatch.mount sh os with
            gameState := { (ColorMatch.mount sh os).gameState with
                             selectedIndex := some w2 }
            feedback := ColorMatch.Feedback.wrong
            pendingReset := true } MGEvent.fireReset =
        some (ColorMatch.mount sh os) := rfl
    have h5 : ColorMatch.step (ColorMatch.mount sh os) (MGEvent.tap ti) =
        some { ColorMatch.mount sh os with
                 gameState := { (ColorMatch.mount sh os).gameState with
                                  selectedIndex := some ti }
                 feedback := ColorMatch.Feedback.correct
                 pendingComplete := true } := by
      simp only [ColorMatch.step]
      rw [cm_tap_correct rfl hti hoc]
    have h6 : ColorMatch.step
        { ColorMatch.mount sh os with
            gameState := { (ColorMatch.mount sh os).gameState with
                             selectedIndex := some ti }
            feedback := ColorMatch.Feedback.correct
            pendingComplete := true } MGEvent.fireComplete =
        some { ColorMatch.mount sh os with
                 gameState := { (ColorMatch.mount sh os).gameState with
                                  selectedIndex := some ti }
                 feedback := ColorMatch.Feedback.correct
                 pendingComplete := false
                 completions := 1 } := rfl
    refine ⟨{ ColorMatch.mount sh os with
                gameState := { (ColorMatch.mount sh os).gameState with
                                 selectedIndex := some ti }
                feedback := ColorMatch.Feedback.correct
                pendingComplete := false
                completions := 1 }, ?_, rfl⟩
    exact (cm_run_cons _ h1).trans ((cm_run_cons _ h2).trans
      ((cm_run_cons _ h3).trans ((cm_run_cons _ h4).trans
        ((cm_run_cons _ h5).trans ((cm_run_cons _ h6).trans rfl)))))
  · intro sh os evs s ti oc hrun hc0 hti hoc
    have hinv := cm_run_inv evs (cm_mount_inv sh os) hrun
    have hti2 : s.gameState.options.get? ti = some oc := by
      rw [cm_run_options evs hrun]
      exact hti
    rcases hinv with ⟨hf, hpc, hpr, _⟩ | ⟨hf, hpc, hpr, _⟩ |
      ⟨hf, hpc, hpr, _⟩ | ⟨hf, hpc, hpr, hc1⟩
    · have h1 : ColorMatch.step s (MGEvent.tap ti) =
          some { s with gameState := { s.gameState with selectedIndex := some ti }
                        feedback := ColorMatch.Feedback.correct
                        pendingComplete := true } := by
        simp only [ColorMatch.step]
        rw [cm_tap_correct hf hti2 hoc]
      have h2 : ColorMatch.step
          { s with gameState := { s.gameState with selectedIndex := some ti }
                   feedback := ColorMatch.Feedback.correct
                   pendingComplete := true } MGEvent.fireComplete =
          some { s with gameState := { s.gameState with selectedIndex := some ti }
                        feedback := ColorMatch.Feedback.correct
                        pendingComplete := false
                        completions := s.completions + 1 } := rfl
      refine ⟨[MGEvent.tap ti, MGEvent.fireComplete],
        { s with gameState := { s.gameState with selectedIndex := some ti }
                 feedback := ColorMatch.Feedback.correct
                 pendingComplete := false
                 completions := s.completions + 1 }, ?_, ?_⟩
      · exact (cm_run_cons _ h1).trans ((cm_run_cons _ h2).trans rfl)
      · simp [hc0]
    · have h0 : ColorMatch.step s MGEvent.fireReset =
          some { s with feedback := ColorMatch.Feedback.noFeedback
                        gameState := { s.gameState with selectedIndex := none }
                        pendingReset := false } := by
        simp only [ColorMatch.step]
        rw [hpr]
        rfl
      have h1 : ColorMatch.step
          { s with feedback := ColorMatch.Feedback.noFeedback
                   gameState := { s.gameState with selectedIndex := none }
                   pendingReset := false } (MGEvent.tap ti) =
          some { s with gameState := { s.gameState with selectedIndex := some ti }
                        feedback := ColorMatch.Feedback.correct
                        pendingReset := false
                        pendingComplete := true } := by
        simp only [ColorMatch.step]
        exact congrArg some (cm_tap_correct rfl hti2 hoc)
      have h2 : ColorMatch.step
          { s with gameState := { s.gameState with selectedIndex := some ti }
                   feedback := ColorMatch.Feedback.correct
                   pendingReset := false
                   pendingComplete := true } MGEvent.fireComplete =
          some { s with gameState := { s.gameState with selectedIndex := some ti }
                        feedback := ColorMatch.Feedback.correct
                        pendingReset := false
                        pendingComplete := false
                        completions := s.completions + 1 } := rfl
      refine ⟨[MGEvent.fireReset, MGEvent.tap ti, MGEvent.fireComplete],
        { s with gameState := { s.gameState with selectedIndex := some ti }
                 feedback := ColorMatch.Feedback.correct
                 pendingReset := false
                 pendingComplete := false
                 completions := s.completions + 1 }, ?_, ?_⟩
      · exact (cm_run_cons _ h0).trans ((cm_run_cons _ h1).trans
          ((cm_run_cons _ h2).trans rfl))
      · simp [hc0]
    · have h1 : ColorMatch.step s MGEvent.fireComplete =
          some { s with pendingComplete := false
                        completions := s.completions + 1 } := by
        simp only [ColorMatch.step]
        rw [hpc]
        rfl
      refine ⟨[MGEvent.fireComplete],
        { s with pendingComplete := false
                 completions := s.completions + 1 }, ?_, ?_⟩
      · exact (cm_run_cons _ h1).trans rfl
      · simp [hc0]
    · exact absurd (hc0.symm.trans hc1) (by decide)

/-- Witness for C7: the two-wrong-then-correct scenario on a concrete
DirectionMatch instance (target UP, unshuffled direction list). -/
theorem microgame_completion_once_witness :
    ∃ s, DirectionMatch.run
        (DirectionMatch.mount DirectionMatch.Direction.up
          DirectionMatch.ALL_DIRECTIONS)
        [MGEvent.tap 1, MGEvent.fireReset, MGEvent.tap 2, MGEvent.fireReset,
         MGEvent.tap 0, MGEvent.fireComplete] = some s ∧ s.completions = 1 :=
  microgame_completion_once.2.2.1 DirectionMatch.Direction.up
    DirectionMatch.ALL_DIRECTIONS 1 2 0
    { id := 1, direction := DirectionMatch.Direction.down, rotation := 180,
      isTarget := false }
    { id := 2, direction := DirectionMatch.Direction.left, rotation := 270,
      isTarget := false }
    { id := 0, direction := DirectionMatch.Direction.up, rotation := 0,
      isTarget := true }
    (by decide) (by decide) (by decide) (by decide) (by decide) (by decide)

end MicrogamePoc
